import Mathlib

/-!
Verification of the `delong_datasets` client library against its
natural-language specification.

The development shallowly embeds the relevant Python modules:

* `downloader.py` — `response_to_dict_list`, `fetch_all_pages`,
  `load_dataset_from_api` (non-streaming path);
* `metadata.py` — `_request` and `decrypt_dataset` error mapping;
* `api.py` / `policy.py` — `export_data` and `enforce_export_policy`;
* `attestation.py` — `get_attestation_cipher` with its process cache;
* `resumable.py` — `resumable_download`.

External effects (the HTTP server, the local attestation socket, the
filesystem) are modelled as explicit environment parameters, and the
observable effects of each function (rows emitted, page requests issued,
bytes written, sockets contacted) are returned as data so the theorems
can speak about them.
-/

namespace DelongDatasets

/-- A scalar JSON value as it appears in a page response cell. -/
inductive Value where
  | vnull : Value
  | vbool : Bool → Value
  | vint : Int → Value
  | vstr : String → Value
  deriving DecidableEq, Repr

/-- The decrypt endpoint's page response shape (spec §3 "Page Response"):
`data` is a 2D row-major table, `columns` the column names, plus the
pagination metadata fields. -/
structure Page where
  data : List (List Value)
  columns : List String
  row_count : Int
  total_rows : Int
  has_more : Bool
  data_type : String
  deriving DecidableEq, Repr

/-- The Page Response invariant of spec §3: `row_count == len(data)` and
each row's length equals `len(columns)`. -/
def PageInv (p : Page) : Prop :=
  p.row_count = (p.data.length : Int) ∧ ∀ r ∈ p.data, r.length = p.columns.length

instance (p : Page) : Decidable (PageInv p) := by
  unfold PageInv; infer_instance

/-- A Row Record: mapping from column name to scalar value, key order
following `columns` order (spec §3); modelled as an association list. -/
abbrev RowRecord := List (String × Value)

/-- One step of the dict comprehension in `response_to_dict_list`:
`{col: row[i] for i, col in enumerate(columns)}`, walking `columns`
with the running index `i`.  `row[i]` out of range is Python's
`IndexError`, modelled as `none`. -/
def rowToDictAux (row : List Value) : List String → Nat → Option RowRecord
  | [], _ => some []
  | c :: cs, i =>
    match row[i]? with
    | none => none
    | some v => (rowToDictAux row cs (i + 1)).map (fun d => (c, v) :: d)

/-- Convert one page row into a Row Record by zipping with `columns`. -/
def rowToDict (columns : List String) (row : List Value) : Option RowRecord :=
  rowToDictAux row columns 0

/-- The list comprehension over `data` in `response_to_dict_list`; an
`IndexError` on any row propagates (`none`). -/
def mapRows (columns : List String) : List (List Value) → Option (List RowRecord)
  | [] => some []
  | r :: rs =>
    match rowToDict columns r with
    | none => none
    | some d => (mapRows columns rs).map (fun ds => d :: ds)

/-- `response_to_dict_list(response)` from `downloader.py`. -/
def response_to_dict_list (p : Page) : Option (List RowRecord) :=
  mapRows p.columns p.data

/-- `fetch_all_pages` from `downloader.py`.  The backend is modelled by
the sequence of pages it serves to the successive requests of the loop;
the embedding threads the `offset` bookkeeping (`offset += row_count`)
exactly as the code does.  `none` models a run that does not terminate
normally: either the page sequence is exhausted while `has_more` is
still true, or a row conversion raises. -/
def fetchAllPagesGo (offset : Int) : List Page → Option (List RowRecord)
  | [] => none
  | p :: rest =>
    match response_to_dict_list p with
    | none => none
    | some rows =>
      if p.has_more then
        (fetchAllPagesGo (offset + p.row_count) rest).map (fun more => rows ++ more)
      else
        some rows

/-- `fetch_all_pages(dataset_id, token, start_offset=start)` run to
completion against the page sequence `pages`. -/
def fetch_all_pages (start_offset : Int) (pages : List Page) : Option (List RowRecord) :=
  fetchAllPagesGo start_offset pages

/-- The prefix of the page sequence actually fetched by the loop: every
page up to and including the first one reporting `has_more = false`. -/
def pagesFetched : List Page → List Page
  | [] => []
  | p :: rest => p :: (if p.has_more then pagesFetched rest else [])

/-- Sum of `row_count` over a list of pages. -/
def sumRowCount (ps : List Page) : Int :=
  (ps.map Page.row_count).sum

lemma rowToDictAux_ok (row : List Value) :
    ∀ (cs : List String) (i : Nat), i + cs.length ≤ row.length →
      ∃ d, rowToDictAux row cs i = some d ∧ d.length = cs.length := by
  intro cs
  induction cs with
  | nil => intro i _; exact ⟨[], rfl, rfl⟩
  | cons c cs ih =>
    intro i hle
    simp only [List.length_cons] at hle
    have hi : i < row.length := by omega
    obtain ⟨d, hd, hlen⟩ := ih (i + 1) (by omega)
    refine ⟨(c, row[i]) :: d, ?_, by simpa using hlen⟩
    simp [rowToDictAux, List.getElem?_eq_getElem hi, hd]

lemma rowToDict_ok (columns : List String) (row : List Value)
    (h : columns.length ≤ row.length) :
    ∃ d, rowToDict columns row = some d ∧ d.length = columns.length := by
  simpa [rowToDict] using rowToDictAux_ok row columns 0 (by omega)

lemma mapRows_ok (columns : List String) :
    ∀ rows : List (List Value), (∀ r ∈ rows, r.length = columns.length) →
      ∃ ds, mapRows columns rows = some ds ∧ ds.length = rows.length := by
  intro rows
  induction rows with
  | nil => intro _; exact ⟨[], rfl, rfl⟩
  | cons r rs ih =>
    intro h
    obtain ⟨d, hd, _⟩ := rowToDict_ok columns r (le_of_eq (h r (by simp)).symm)
    obtain ⟨ds, hds, hlen⟩ := ih (fun x hx => h x (by simp [hx]))
    exact ⟨d :: ds, by simp [mapRows, hd, hds], by simp [hlen]⟩

lemma response_to_dict_list_ok (p : Page) (hp : PageInv p) :
    ∃ rows, response_to_dict_list p = some rows ∧ (rows.length : Int) = p.row_count := by
  obtain ⟨rows, hr, hlen⟩ := mapRows_ok p.columns p.data hp.2
  exact ⟨rows, hr, by rw [hlen, hp.1]⟩

/-- **C1.** For every page sequence in which every page satisfies the Page
Response invariant (`row_count == len(data)` and each row's length equals
`len(columns)`) and some page reports `has_more = false`, `fetch_all_pages`
terminates normally and the total number of row records it emits equals
the sum of `row_count` over all pages fetched (the prefix up to and
including the first `has_more = false` page). -/
theorem fetch_all_pages_total (pages : List Page) (start_offset : Int)
    (hinv : ∀ p ∈ pages, PageInv p)
    (hterm : ∃ p ∈ pages, p.has_more = false) :
    ∃ rows, fetch_all_pages start_offset pages = some rows ∧
      (rows.length : Int) = sumRowCount (pagesFetched pages) := by
  unfold fetch_all_pages
  induction pages generalizing start_offset with
  | nil => simp at hterm
  | cons p rest ih =>
    obtain ⟨rows, hrows, hlen⟩ := response_to_dict_list_ok p (hinv p (by simp))
    by_cases hm : p.has_more
    · have hterm' : ∃ q ∈ rest, q.has_more = false := by
        rcases hterm with ⟨q, hq, hqf⟩
        rcases List.mem_cons.mp hq with h | h
        · exact absurd hqf (by simp [h, hm])
        · exact ⟨q, h, hqf⟩
      obtain ⟨more, hmore, hmlen⟩ :=
        ih (start_offset + p.row_count) (fun q hq => hinv q (by simp [hq])) hterm'
      refine ⟨rows ++ more, ?_, ?_⟩
      · simp [fetchAllPagesGo, hrows, hm, hmore]
      · simp [pagesFetched, sumRowCount, hm]
        rw [hlen, hmlen]
        simp [sumRowCount]
    · refine ⟨rows, ?_, ?_⟩
      · simp [fetchAllPagesGo, hrows, hm]
      · simp [pagesFetched, sumRowCount, hm, hlen]

/-- Concrete page sequence used to witness `fetch_all_pages_total`. -/
def c1Pages : List Page :=
  [ ⟨[[Value.vint 1, Value.vstr "a"], [Value.vint 2, Value.vstr "b"]],
      ["id", "name"], 2, 3, true, "sample"⟩,
    ⟨[[Value.vint 3, Value.vstr "c"]],
      ["id", "name"], 1, 3, false, "sample"⟩ ]

/-- Witness for **C1** at a concrete two-page sequence. -/
theorem fetch_all_pages_total_witness :
    ∃ rows, fetch_all_pages 0 c1Pages = some rows ∧
      (rows.length : Int) = sumRowCount (pagesFetched c1Pages) :=
  fetch_all_pages_total c1Pages 0 (by decide) (by decide)

/-! ### `load_dataset_from_api`, non-streaming path -/

/-- The Python break condition `if limit and len(all_rows) >= limit` of
the eager loop in `load_dataset_from_api`: `limit` is truthy (not `None`
and nonzero) and the collected length has reached it. -/
def limitReached (limit : Option Int) (n : Nat) : Bool :=
  match limit with
  | none => false
  | some l => decide (l ≠ 0) && decide ((n : Int) ≥ l)

/-- The consumer loop body over the rows yielded from one page:
append each row to `all_rows`, breaking as soon as `limitReached`.
Returns the accumulated rows and whether the loop broke. -/
def takeRowsUpTo (limit : Option Int) : List RowRecord → List RowRecord →
    List RowRecord × Bool
  | acc, [] => (acc, false)
  | acc, r :: rs =>
    let acc' := acc ++ [r]
    if limitReached limit acc'.length then (acc', true)
    else takeRowsUpTo limit acc' rs

/-- The non-streaming loop of `load_dataset_from_api` interleaved with the
lazy `fetch_all_pages` generator.  A page request is issued only when the
consumer pulls past the previous page's rows with `has_more` still true;
the returned `Nat` counts the page requests actually issued.  `none`
models abnormal termination (server page sequence exhausted with
`has_more` true, or a row conversion error). -/
def loadEagerGo (limit : Option Int) (offset : Int) (acc : List RowRecord) :
    List Page → Option (List RowRecord × Nat)
  | [] => none
  | p :: rest =>
    match response_to_dict_list p with
    | none => none
    | some rows =>
      let res := takeRowsUpTo limit acc rows
      if res.2 then some (res.1, 1)
      else if p.has_more then
        (loadEagerGo limit (offset + p.row_count) res.1 rest).map
          (fun x => (x.1, x.2 + 1))
      else some (res.1, 1)

/-- `page_size = limit if limit and limit < config.DS_DEFAULT_LIMIT else
config.DS_DEFAULT_LIMIT` from `load_dataset_from_api`. -/
def pageSizeFor (limit : Option Int) (defaultLimit : Int) : Int :=
  match limit with
  | none => defaultLimit
  | some l => if l ≠ 0 ∧ l < defaultLimit then l else defaultLimit

/-- `load_dataset_from_api(..., streaming=False, limit=limit, offset=offset)`
run against the page sequence `pages`: the collected rows of the returned
`Dataset`, paired with the number of page requests issued. -/
def load_dataset_from_api_eager (limit : Option Int) (offset : Int)
    (pages : List Page) : Option (List RowRecord × Nat) :=
  loadEagerGo limit offset [] pages

/-- Rows a full fetch would emit: row count of the fetched page prefix. -/
def totalAvailable (pages : List Page) : Nat :=
  ((pagesFetched pages).map (fun p => p.data.length)).sum

/-- Minimal number of pages (served in order) whose rows reach `l`. -/
def pagesNeeded (l : Nat) : List Page → Nat
  | [] => 0
  | p :: rest =>
    if l ≤ p.data.length then 1 else 1 + pagesNeeded (l - p.data.length) rest

lemma limitReached_some (l n : Nat) (hl : 0 < l) :
    limitReached (some (l : Int)) n = decide (l ≤ n) := by
  have h0 : (l : Int) ≠ 0 := by exact_mod_cast hl.ne'
  have hd : decide ((l : Int) ≠ 0) = true := decide_eq_true h0
  simp only [limitReached, hd, Bool.true_and]
  exact decide_eq_decide.mpr (by exact_mod_cast Iff.rfl)

lemma takeRowsUpTo_no_break (l : Nat) (hl : 0 < l) :
    ∀ (rows acc : List RowRecord), acc.length + rows.length < l →
      takeRowsUpTo (some (l : Int)) acc rows = (acc ++ rows, false) := by
  intro rows
  induction rows with
  | nil => intro acc _; simp [takeRowsUpTo]
  | cons r rs ih =>
    intro acc hlen
    simp only [List.length_cons] at hlen
    have hnot : limitReached (some (l : Int)) (acc ++ [r]).length = false := by
      rw [limitReached_some l _ hl]
      simp only [List.length_append, List.length_singleton, decide_eq_false_iff_not]
      omega
    rw [takeRowsUpTo, hnot]
    simp only [Bool.false_eq_true, if_false]
    rw [ih (acc ++ [r]) (by simp; omega)]
    simp

lemma takeRowsUpTo_break (l : Nat) (hl : 0 < l) :
    ∀ (rows acc : List RowRecord), acc.length < l → l ≤ acc.length + rows.length →
      ∃ acc', takeRowsUpTo (some (l : Int)) acc rows = (acc', true) ∧
        acc'.length = l := by
  intro rows
  induction rows with
  | nil => intro acc h1 h2; simp at h2; omega
  | cons r rs ih =>
    intro acc h1 h2
    simp only [List.length_cons] at h2
    by_cases hr : l ≤ (acc ++ [r]).length
    · have heq : (acc ++ [r]).length = l := by simp at hr ⊢; omega
      have hdone : limitReached (some (l : Int)) (acc ++ [r]).length = true := by
        rw [limitReached_some l _ hl]; simpa using hr
      refine ⟨acc ++ [r], ?_, heq⟩
      rw [takeRowsUpTo, hdone]
      simp
    · have hnot : limitReached (some (l : Int)) (acc ++ [r]).length = false := by
        rw [limitReached_some l _ hl]
        simpa using hr
      obtain ⟨acc', hacc', hlen'⟩ := ih (acc ++ [r]) (by simp at hr ⊢; omega)
        (by simp; omega)
      refine ⟨acc', ?_, hlen'⟩
      rw [takeRowsUpTo, hnot]
      simpa using hacc'

lemma response_rows_length (p : Page) (hp : PageInv p) :
    ∃ rows, response_to_dict_list p = some rows ∧ rows.length = p.data.length := by
  obtain ⟨rows, hr, hlen⟩ := response_to_dict_list_ok p hp
  refine ⟨rows, hr, ?_⟩
  have := hp.1
  omega

lemma loadEagerGo_limit (l : Nat) (hl : 0 < l) :
    ∀ (pages : List Page) (offset : Int) (acc : List RowRecord),
      (∀ p ∈ pages, PageInv p) → acc.length < l →
      l < acc.length + totalAvailable pages →
      ∃ rows, loadEagerGo (some (l : Int)) offset acc pages =
          some (rows, pagesNeeded (l - acc.length) pages) ∧ rows.length = l := by
  intro pages
  induction pages with
  | nil => intro offset acc _ h1 h2; simp [totalAvailable, pagesFetched] at h2; omega
  | cons p rest ih =>
    intro offset acc hinv hacc hrem
    obtain ⟨rows, hrows, hrlen⟩ := response_rows_length p (hinv p (by simp))
    by_cases hfit : l ≤ acc.length + p.data.length
    · obtain ⟨acc', hacc', hlen'⟩ :=
        takeRowsUpTo_break l hl rows acc hacc (by omega)
      refine ⟨acc', ?_, hlen'⟩
      have hp : pagesNeeded (l - acc.length) (p :: rest) = 1 := by
        rw [pagesNeeded, if_pos (by omega)]
      rw [loadEagerGo, hrows, hp]
      simp [hacc']
    · push_neg at hfit
      have hnb := takeRowsUpTo_no_break l hl rows acc (by omega)
      by_cases hm : p.has_more
      · have hrem' : l < (acc ++ rows).length + totalAvailable rest := by
          have : totalAvailable (p :: rest) = p.data.length + totalAvailable rest := by
            simp [totalAvailable, pagesFetched, hm]
          simp only [List.length_append]
          omega
        obtain ⟨out, hout, holen⟩ := ih (offset + p.row_count) (acc ++ rows)
          (fun q hq => hinv q (by simp [hq])) (by simp; omega) hrem'
        refine ⟨out, ?_, holen⟩
        have hp : pagesNeeded (l - acc.length) (p :: rest) =
            1 + pagesNeeded (l - (acc ++ rows).length) rest := by
          rw [pagesNeeded, if_neg (by omega)]
          congr 1
          congr 1
          simp only [List.length_append]
          omega
        rw [loadEagerGo, hrows, hp]
        simp [hnb, hm, hout]
        omega
      · exfalso
        have : totalAvailable (p :: rest) = p.data.length := by
          simp [totalAvailable, pagesFetched, hm]
        omega

/-- **C5.** For every eager (non-streaming) fetch with a positive `limit`
strictly below the total rows available, `load_dataset_from_api` returns
exactly `limit` rows, and the number of page requests issued is exactly
the minimal number of pages needed to accumulate `limit` rows — no
further page request is issued after the `limit`-th row is collected. -/
theorem load_eager_limit_exact (pages : List Page) (offset : Int) (l : Nat)
    (hinv : ∀ p ∈ pages, PageInv p) (hpos : 0 < l)
    (hlt : l < totalAvailable pages) :
    ∃ rows, load_dataset_from_api_eager (some (l : Int)) offset pages =
        some (rows, pagesNeeded l pages) ∧ rows.length = l := by
  have := loadEagerGo_limit l hpos pages offset [] hinv (by simpa using hpos)
    (by simpa using hlt)
  simpa [load_dataset_from_api_eager] using this

/-- Concrete page sequence used to witness `load_eager_limit_exact`. -/
def c5Pages : List Page :=
  [ ⟨[[Value.vint 10], [Value.vint 11]], ["x"], 2, 4, true, "real"⟩,
    ⟨[[Value.vint 12], [Value.vint 13]], ["x"], 2, 4, false, "real"⟩ ]

/-- Witness for **C5**: limit 3 over a 4-row, two-page sequence. -/
theorem load_eager_limit_exact_witness :
    ∃ rows, load_dataset_from_api_eager (some (3 : Int)) 0 c5Pages =
        some (rows, pagesNeeded 3 c5Pages) ∧ rows.length = 3 :=
  load_eager_limit_exact c5Pages 0 3 (by decide) (by decide) (by decide)

/-- **C10.** In non-streaming mode a call with `limit = 0` behaves
identically to a call with no limit: the Python truthiness test `if limit`
treats 0 as absent, so both the page-size selection and the whole fetch
loop coincide with the no-limit call (which fetches every available row). -/
theorem load_eager_limit_zero (pages : List Page) (offset : Int)
    (defaultLimit : Int) :
    load_dataset_from_api_eager (some 0) offset pages =
        load_dataset_from_api_eager none offset pages ∧
      pageSizeFor (some 0) defaultLimit = pageSizeFor none defaultLimit := by
  constructor
  · unfold load_dataset_from_api_eager
    have htake : ∀ (rows acc : List RowRecord),
        takeRowsUpTo (some 0) acc rows = takeRowsUpTo none acc rows := by
      intro rows
      induction rows with
      | nil => intro acc; rfl
      | cons r rs ih =>
        intro acc
        rw [takeRowsUpTo, takeRowsUpTo]
        simp only [limitReached, decide_not]
        simpa using ih (acc ++ [r])
    suffices h : ∀ (pages : List Page) (offset : Int) (acc : List RowRecord),
        loadEagerGo (some 0) offset acc pages = loadEagerGo none offset acc pages by
      exact h pages offset []
    intro ps
    induction ps with
    | nil => intro offset acc; rfl
    | cons p rest ih =>
      intro offset acc
      rw [loadEagerGo, loadEagerGo]
      cases response_to_dict_list p with
      | none => rfl
      | some rows => simp [htake, ih]
  · rfl

/-! ### Error taxonomy (`errors.py`) -/

/-- The library's error taxonomy (`errors.py`), plus Python's built-in
`ValueError` raised by `export_data` on an unsupported format. -/
inductive DsError where
  | auth
  | notFound
  | rateLimit
  | remoteServer
  | network
  | parseError
  | policyViolation
  | valueError
  deriving DecidableEq, Repr

/-! ### Export policy (`policy.py`, `api.py`) -/

/-- `enforce_export_policy(rows=rows)` from `policy.py`: raises
`PolicyViolationError` iff `rows is not None and rows > MAX_LOCAL_EXPORT_ROWS`. -/
def enforce_export_policy (rows : Option Int) (maxRows : Int) : Except DsError Unit :=
  match rows with
  | some r => if r > maxRows then .error .policyViolation else .ok ()
  | none => .ok ()

/-- An observable filesystem effect of `export_data`. -/
inductive ExportEvent where
  | write (path : String)
  deriving DecidableEq, Repr

/-- The duck-typed capabilities of the `data` argument of `export_data`:
`getattr(data, "num_rows", None)` and the `hasattr` probes of the export
branches. -/
structure ExportTarget where
  num_rows : Option Int
  has_to_csv : Bool
  has_to_json : Bool
  has_to_parquet : Bool
  deriving DecidableEq, Repr

/-- `export_data(data, format=format, path=path)` from `api.py`, with the
filesystem writes it performs returned as a trace.  The policy check runs
first; only afterwards does any branch write.  The pandas fallback
(`df.to_csv` / `to_json` / `to_parquet`) is modelled as a successful write
for the three supported formats. -/
def export_data (data : ExportTarget) (format : String) (path : String)
    (maxRows : Int) : Except DsError (List ExportEvent) :=
  match enforce_export_policy data.num_rows maxRows with
  | .error e => .error e
  | .ok _ =>
    let fmt := format.toLower
    if data.has_to_csv ∧ fmt = "csv" then .ok [.write path]
    else if data.has_to_json ∧ fmt = "json" then .ok [.write path]
    else if data.has_to_parquet ∧ fmt = "parquet" then .ok [.write path]
    else if fmt = "csv" then .ok [.write path]
    else if fmt = "json" then .ok [.write path]
    else if fmt = "parquet" then .ok [.write path]
    else .error .valueError

/-- **C3.** For every dataset whose known row count exceeds the configured
maximum, `export_data` raises `PolicyViolationError`; in the trace model
the result is the bare policy error, carrying no write event, so no output
file is created or modified — the check precedes every export path. -/
theorem export_data_policy (data : ExportTarget) (format path : String)
    (maxRows r : Int) (hrows : data.num_rows = some r) (hgt : r > maxRows) :
    export_data data format path maxRows = .error .policyViolation := by
  unfold export_data enforce_export_policy
  rw [hrows]
  simp [hgt]

/-- Witness for **C3**: 20000 rows against a 10000-row ceiling. -/
theorem export_data_policy_witness :
    export_data ⟨some 20000, true, true, true⟩ "csv" "out.csv" 10000 =
      .error .policyViolation :=
  export_data_policy ⟨some 20000, true, true, true⟩ "csv" "out.csv" 10000 20000
    rfl (by decide)

/-- **C9.** When the input has no `num_rows` attribute (the resolved row
count is `None`), the export ceiling is never checked: the result is never
`PolicyViolationError`, and for every supported format the export proceeds
to write regardless of how many rows the data actually contains. -/
theorem export_data_no_num_rows (data : ExportTarget) (format path : String)
    (maxRows : Int) (hnone : data.num_rows = none) :
    export_data data format path maxRows ≠ .error .policyViolation ∧
      export_data data format path maxRows =
        (if format.toLower = "csv" ∨ format.toLower = "json" ∨
            format.toLower = "parquet"
         then .ok [.write path] else .error .valueError) := by
  have hexp : export_data data format path maxRows =
      (if format.toLower = "csv" ∨ format.toLower = "json" ∨
          format.toLower = "parquet"
       then .ok [.write path] else .error .valueError) := by
    unfold export_data enforce_export_policy
    rw [hnone]
    by_cases hc : format.toLower = "csv" <;>
      by_cases hj : format.toLower = "json" <;>
        by_cases hp : format.toLower = "parquet" <;>
          cases data.has_to_csv <;> cases data.has_to_json <;>
            cases data.has_to_parquet <;>
              simp_all
  refine ⟨?_, hexp⟩
  rw [hexp]
  by_cases hc : format.toLower = "csv" <;>
    by_cases hj : format.toLower = "json" <;>
      by_cases hp : format.toLower = "parquet" <;> simp_all

/-- Witness for **C9**: a target without `num_rows` exports fine. -/
theorem export_data_no_num_rows_witness :
    export_data ⟨none, true, true, true⟩ "csv" "out.csv" 10 ≠
        .error .policyViolation ∧
      export_data ⟨none, true, true, true⟩ "csv" "out.csv" 10 =
        (if "csv".toLower = "csv" ∨ "csv".toLower = "json" ∨
            "csv".toLower = "parquet"
         then .ok [.write "out.csv"] else .error .valueError) :=
  export_data_no_num_rows ⟨none, true, true, true⟩ "csv" "out.csv" 10 rfl

/-! ### Attestation (`attestation.py`) -/

/-- The external world seen by `get_attestation_cipher`:
the result of `fetch_local_attestation_token` (`none` models any failure
of the socket exchange), whether `config.DS_ATTESTATION_ENDPOINT` is set,
and the remote verification service's answer for a given token (`none`
models any non-200/malformed/failed exchange). -/
structure AttEnv where
  localToken : Option String
  endpointConfigured : Bool
  remote : String → Option String

/-- Observable outcome of one `get_attestation_cipher` call: the returned
string, the value of the module-global `_cached_cipher` after the call,
and whether the local socket and the remote endpoint were contacted. -/
structure AttResult where
  cipher : String
  cache : Option String
  localContacted : Bool
  remoteContacted : Bool
  deriving DecidableEq, Repr

/-- `request_attestation_cipher(token)` from `attestation.py`: returns
`None` without any request when the endpoint is unconfigured, otherwise
the remote service's answer. -/
def request_attestation_cipher (env : AttEnv) (token : String) : Option String :=
  if env.endpointConfigured then env.remote token else none

/-- `get_attestation_cipher()` from `attestation.py`, with the global
`_cached_cipher` passed in and the updated cache returned.  Python's
`if not local_token` treats both `None` and the empty string as failure,
and `_cached_cipher = cipher or ""` maps both `None` and `""` to `""`. -/
def get_attestation_cipher (cache : Option String) (env : AttEnv) : AttResult :=
  match cache with
  | some c => ⟨c, some c, false, false⟩
  | none =>
    match env.localToken with
    | none => ⟨"", some "", true, false⟩
    | some t =>
      if t = "" then ⟨"", some "", true, false⟩
      else
        let c := (request_attestation_cipher env t).getD ""
        ⟨c, some c, true, env.endpointConfigured⟩

/-- **C6.** `get_attestation_cipher` returns the empty string both when the
local attestation token cannot be obtained (including an empty token,
which Python's truthiness test treats as failure) and when remote
verification fails — with no caller-visible distinction between the two
cases; moreover when the local step fails the remote verification
endpoint is never contacted. -/
theorem get_attestation_cipher_failures (env : AttEnv) :
    ((env.localToken = none ∨ env.localToken = some "") →
      (get_attestation_cipher none env).cipher = "" ∧
        (get_attestation_cipher none env).remoteContacted = false) ∧
    (∀ t, env.localToken = some t → t ≠ "" →
      (env.endpointConfigured = false ∨ env.remote t = none ∨
        env.remote t = some "") →
      (get_attestation_cipher none env).cipher = "") := by
  constructor
  · rintro (h | h) <;> simp [get_attestation_cipher, h]
  · rintro t ht hne (h | h | h)
    · simp [get_attestation_cipher, request_attestation_cipher, ht, hne, h]
    · simp [get_attestation_cipher, request_attestation_cipher, ht, hne, h]
    · simp only [get_attestation_cipher, request_attestation_cipher, ht, hne, h]
      cases env.endpointConfigured <;> simp

/-- Environment with no local attestation socket. -/
def c6EnvNoTee : AttEnv := ⟨none, true, fun _ => some "cipher"⟩

/-- Environment where the remote verification step fails. -/
def c6EnvRemoteFail : AttEnv := ⟨some "tok", true, fun _ => none⟩

/-- Witness for **C6**: both failure modes yield the empty string, and the
no-TEE case contacts no remote endpoint. -/
theorem get_attestation_cipher_failures_witness :
    ((get_attestation_cipher none c6EnvNoTee).cipher = "" ∧
      (get_attestation_cipher none c6EnvNoTee).remoteContacted = false) ∧
    (get_attestation_cipher none c6EnvRemoteFail).cipher = "" :=
  ⟨(get_attestation_cipher_failures c6EnvNoTee).1 (Or.inl rfl),
    (get_attestation_cipher_failures c6EnvRemoteFail).2 "tok" rfl
      (by decide) (Or.inr (Or.inl rfl))⟩

/-- **C7.** The attestation cipher is resolved at most once per process:
every first call leaves the cache holding exactly the string it returned
(empty or not), and every call that finds a populated cache returns the
cached string unchanged without contacting the local socket or the remote
endpoint — so the cached value is never invalidated. -/
theorem get_attestation_cipher_cached :
    (∀ (c : String) (env : AttEnv),
      get_attestation_cipher (some c) env = ⟨c, some c, false, false⟩) ∧
    (∀ env : AttEnv,
      (get_attestation_cipher none env).cache =
        some (get_attestation_cipher none env).cipher) := by
  constructor
  · intro c env; rfl
  · intro env
    unfold get_attestation_cipher
    cases env.localToken with
    | none => rfl
    | some t =>
      by_cases ht : t = "" <;> simp [ht]

/-! ### Resumable downloader (`resumable.py`) -/

/-- Python's `str.lower()`: lower-case every character. -/
def pyLower (s : String) : String := String.mk (s.data.map Char.toLower)

/-- Python's `needle in hay` substring test on character lists. -/
def listContainsSub (needle : List Char) : List Char → Bool
  | [] => needle.isEmpty
  | c :: cs => needle.isPrefixOf (c :: cs) || listContainsSub needle cs

/-- Python's `needle in hay` substring test on strings. -/
def strContainsSub (hay needle : String) : Bool :=
  listContainsSub needle.data hay.data

/-- Outcome of the best-effort `_http_head` probe: either a status code
together with the value of the `Accept-Ranges` header (from the
lower-cased header map), or an exception. -/
inductive HeadOutcome where
  | ok (status : Nat) (acceptRanges : Option String)
  | fail
  deriving DecidableEq, Repr

/-- The server as seen by `resumable_download`: the HEAD probe outcome and,
for the one GET actually issued (argument: the `Range` start offset sent,
`none` for a plain GET), the response status and streamed body bytes. -/
structure DlEnv where
  head : HeadOutcome
  get : Option Nat → Nat × List Nat

/-- Observable outcome of `resumable_download`: the bytes of the committed
destination file, the `Range` start offset actually sent (`none` = plain
GET), the GET response status, and whether the `.part` file was opened in
append mode. -/
structure DlResult where
  dest : List Nat
  rangeSent : Option Nat
  status : Nat
  appended : Bool
  deriving DecidableEq, Repr

/-- `existing = os.path.getsize(part_path)` when the `.part` file exists,
else 0. -/
def partSize (part : Option (List Nat)) : Nat :=
  (part.map List.length).getD 0

/-- `supports_range = "bytes" in accept_ranges or status == 200`, with
`accept_ranges = hdrs.get("accept-ranges", "").lower()`, and
`supports_range = True` as the fallback when the HEAD probe raises. -/
def supportsRange (h : HeadOutcome) : Bool :=
  match h with
  | .fail => true
  | .ok status acceptRanges =>
    strContainsSub (pyLower (acceptRanges.getD "")) "bytes" || status == 200

/-- `range_start = existing if (existing > 0 and supports_range) else None`. -/
def rangeStart (part : Option (List Nat)) (env : DlEnv) : Option Nat :=
  if 0 < partSize part ∧ supportsRange env.head then some (partSize part) else none

/-- `_http_get` adds the `Range` header iff
`range_start is not None and range_start > 0`. -/
def rangeHeaderOf (rs : Option Nat) : Option Nat :=
  match rs with
  | some n => if 0 < n then some n else none
  | none => none

/-- `resumable_download(url, headers, dest_path)` from `resumable.py`, run
against server `env`, with `part` the pre-existing `.part` file content
(`none` = no such file).  `mode = "ab" if status == 206 and range_start
else "wb"`; the committed destination is the final `.part` content after
`os.replace`. -/
def resumable_download (part : Option (List Nat)) (env : DlEnv) : DlResult :=
  let rs := rangeStart part env
  let hdr := rangeHeaderOf rs
  let res := env.get hdr
  let append := res.1 == 206 && (match rs with | some n => n ≠ 0 | none => false)
  ⟨if append then part.getD [] ++ res.2 else res.2, hdr, res.1, append⟩

lemma rangeHeaderOf_rangeStart (part : Option (List Nat)) (env : DlEnv) :
    rangeHeaderOf (rangeStart part env) = rangeStart part env := by
  unfold rangeStart rangeHeaderOf
  split_ifs with h
  · simp [h.1]
  · rfl

lemma rangeStart_truthy (part : Option (List Nat)) (env : DlEnv) :
    (match rangeStart part env with | some n => n ≠ 0 | none => false) =
      (rangeStart part env).isSome := by
  unfold rangeStart
  split_ifs with h
  · have hne : partSize part ≠ 0 := by have := h.1; omega
    simp [hne]
  · rfl

lemma rd_rangeSent (part : Option (List Nat)) (env : DlEnv) :
    (resumable_download part env).rangeSent = rangeStart part env := by
  simp only [resumable_download]
  exact rangeHeaderOf_rangeStart part env

lemma rd_status (part : Option (List Nat)) (env : DlEnv) :
    (resumable_download part env).status = (env.get (rangeStart part env)).1 := by
  simp only [resumable_download]
  rw [rangeHeaderOf_rangeStart]

lemma rd_appended (part : Option (List Nat)) (env : DlEnv) :
    (resumable_download part env).appended =
      ((env.get (rangeStart part env)).1 == 206 &&
        (rangeStart part env).isSome) := by
  simp only [resumable_download]
  rw [rangeHeaderOf_rangeStart, rangeStart_truthy]

lemma rd_dest (part : Option (List Nat)) (env : DlEnv) :
    (resumable_download part env).dest =
      if ((env.get (rangeStart part env)).1 == 206 &&
            (rangeStart part env).isSome) = true
      then part.getD [] ++ (env.get (rangeStart part env)).2
      else (env.get (rangeStart part env)).2 := by
  simp only [resumable_download]
  rw [rangeHeaderOf_rangeStart, rangeStart_truthy]

/-- **C2.** The response body is appended to the `.part` file exactly when
a resume was requested (a non-empty `.part` existed, so a `Range` header
was sent) and the response status is 206 — in that case the first N bytes
are preserved unmodified and the final file holds N plus the streamed
bytes; in every other case (in particular a 200 answer despite the Range
request) the `.part` file is opened in write mode and its previous bytes
are discarded. -/
theorem resumable_download_append_iff (part : Option (List Nat)) (env : DlEnv) :
    ((resumable_download part env).appended = true ↔
      (resumable_download part env).rangeSent.isSome = true ∧
        (resumable_download part env).status = 206) ∧
    ((resumable_download part env).rangeSent.isSome = true →
      ∃ p, part = some p ∧ p ≠ [] ∧
        (resumable_download part env).rangeSent = some p.length) ∧
    ((resumable_download part env).appended = true →
      (resumable_download part env).dest =
          part.getD [] ++ (env.get (resumable_download part env).rangeSent).2 ∧
        (resumable_download part env).dest.length =
          partSize part +
            (env.get (resumable_download part env).rangeSent).2.length) ∧
    ((resumable_download part env).appended = false →
      (resumable_download part env).dest =
        (env.get (resumable_download part env).rangeSent).2) := by
  rw [rd_appended, rd_dest, rd_status, rd_rangeSent]
  refine ⟨?_, ?_, ?_, ?_⟩
  · simp only [Bool.and_eq_true, beq_iff_eq]
    exact ⟨fun h => ⟨h.2, h.1⟩, fun h => ⟨h.2, h.1⟩⟩
  · intro hsome
    unfold rangeStart at hsome ⊢
    split_ifs at hsome ⊢ with h
    · rcases part with _ | p
      · exfalso; have := h.1; simp [partSize] at this
      · have hpos : 0 < p.length := by simpa [partSize] using h.1
        exact ⟨p, rfl, List.length_pos.mp hpos, by simp [partSize]⟩
    · simp at hsome
  · intro happ
    rw [if_pos happ]
    refine ⟨rfl, ?_⟩
    rcases part with _ | p <;> simp [partSize]
  · intro hnapp
    rw [if_neg (by simp [hnapp])]

/-- Server used to witness `resumable_download_append_iff`: honours Range
with a 206 whose body is the remaining two bytes. -/
def c2Env : DlEnv :=
  ⟨.ok 200 (some "bytes"),
   fun r => match r with
     | some _ => (206, [30, 40])
     | none => (200, [10, 20, 30, 40])⟩

/-- Witness for **C2**: resuming a 2-byte `.part` via a 206 appends,
preserving the 2 old bytes ahead of the streamed ones. -/
theorem resumable_download_append_iff_witness :
    ((resumable_download (some [10, 20]) c2Env).appended = true ↔
      (resumable_download (some [10, 20]) c2Env).rangeSent.isSome = true ∧
        (resumable_download (some [10, 20]) c2Env).status = 206) ∧
    (∃ p, (some [10, 20] : Option (List Nat)) = some p ∧ p ≠ [] ∧
      (resumable_download (some [10, 20]) c2Env).rangeSent = some p.length) ∧
    (resumable_download (some [10, 20]) c2Env).dest =
      (some [10, 20] : Option (List Nat)).getD [] ++
        (c2Env.get (resumable_download (some [10, 20]) c2Env).rangeSent).2 :=
  ⟨(resumable_download_append_iff (some [10, 20]) c2Env).1,
    (resumable_download_append_iff (some [10, 20]) c2Env).2.1 (by decide),
    ((resumable_download_append_iff (some [10, 20]) c2Env).2.2.1 (by decide)).1⟩

/-- The range-support condition as claim **C8** states it: the
`Accept-Ranges` header of the HEAD probe contains `"bytes"`, or the HEAD
probe itself failed — a successful probe's status plays no role. -/
def claimedRangeSupport (h : HeadOutcome) : Bool :=
  match h with
  | .fail => true
  | .ok _ acceptRanges => strContainsSub (pyLower (acceptRanges.getD "")) "bytes"

/-- Claim **C8** as stated: a `Range` header is sent exactly when a
non-empty `.part` exists and `claimedRangeSupport` holds. -/
def C8Claim : Prop :=
  ∀ (part : Option (List Nat)) (env : DlEnv),
    (resumable_download part env).rangeSent.isSome = true ↔
      (0 < partSize part ∧ claimedRangeSupport env.head = true)

/-- HEAD answers 200 without any `Accept-Ranges` header. -/
def c8Env : DlEnv := ⟨.ok 200 none, fun _ => (200, [])⟩

/-- Counterexample to **C8** as stated: with a 1-byte `.part` file and a
HEAD probe answering 200 without any `Accept-Ranges` header, the code
still sends `Range: bytes=1-` (`supports_range` is also true whenever the
HEAD status is 200), while the claimed condition is false. -/
theorem resumable_range_condition_counterexample : ¬ C8Claim := by
  intro h
  have h2 := (h (some [7]) c8Env).mp (by decide)
  exact absurd h2.2 (by decide)

/-- The range-support condition actually implemented: `"bytes"` in the
`Accept-Ranges` header, or HEAD status 200, or HEAD probe failure. -/
def implementedRangeSupport (h : HeadOutcome) : Prop :=
  match h with
  | .fail => True
  | .ok status acceptRanges =>
    strContainsSub (pyLower (acceptRanges.getD "")) "bytes" = true ∨ status = 200

/-- **C8 (amended).** `resumable_download` sends a `Range` header exactly
when a non-empty `.part` file exists and range support was indicated,
where support is indicated exactly when the HEAD probe's `Accept-Ranges`
header contains `"bytes"`, **or the HEAD probe succeeded with status
200**, or the HEAD probe itself failed (optimistic assumption); the
offset sent is the `.part` size. -/
theorem resumable_range_condition (part : Option (List Nat)) (env : DlEnv) :
    ((resumable_download part env).rangeSent.isSome = true ↔
      0 < partSize part ∧ implementedRangeSupport env.head) ∧
    ((resumable_download part env).rangeSent.isSome = true →
      (resumable_download part env).rangeSent = some (partSize part)) := by
  rw [rd_rangeSent]
  have hsup : supportsRange env.head = true ↔ implementedRangeSupport env.head := by
    cases env.head with
    | fail => simp [supportsRange, implementedRangeSupport]
    | ok status ar => simp [supportsRange, implementedRangeSupport]
  constructor
  · unfold rangeStart
    split_ifs with h
    · simpa [← hsup] using h
    · rw [not_and_or] at h
      simp only [Option.isSome_none, Bool.false_eq_true, false_iff, not_and]
      intro hpos
      rcases h with h | h
      · omega
      · rw [← hsup]; simpa using h
  · intro hsome
    unfold rangeStart at hsome ⊢
    split_ifs at hsome ⊢
    · rfl
    · simp at hsome

/-- Server whose HEAD probe fails; range support is assumed. -/
def c8WitEnv : DlEnv := ⟨.fail, fun _ => (206, [42])⟩

/-- Witness for **C8 (amended)**: a failed HEAD probe with a 1-byte
`.part` file leads to `Range: bytes=1-`. -/
theorem resumable_range_condition_witness :
    (resumable_download (some [9]) c8WitEnv).rangeSent =
      some (partSize (some [9])) :=
  (resumable_range_condition (some [9]) c8WitEnv).2 (by decide)

/-! ### Error mapping of the decrypt request (`metadata.py`) -/

/-- How one HTTP exchange of `_request` resolves, as `urllib` delivers it:
`urlopen` returned a response (`ok`, with the status from `getcode()` and
the raw body), raised `urllib.error.HTTPError` (`httpError` — how every
non-2xx response arrives), or raised some other connection-level
exception (`transport`). -/
inductive HttpResult where
  | ok (status : Nat) (body : String)
  | httpError (code : Nat) (body : String)
  | transport
  deriving DecidableEq, Repr

/-- The decoded JSON object of a decrypt response: each required key is
`none` when absent from the body. -/
structure RawResponse where
  dataField : Option (List (List Value))
  columnsField : Option (List String)
  rowCountField : Option Int
  totalRowsField : Option Int
  hasMoreField : Option Bool
  dataTypeField : Option String
  deriving DecidableEq, Repr

/-- `_request(url, ...)` from `metadata.py`.  `parse` models `json.loads`
(`none` = the body is unparseable JSON, so `json.loads` raises).  Any
exception raised inside the `try` block that is not a
`urllib.error.HTTPError` — including `json.loads` failures and the
status-branch raises themselves, since the library's error classes derive
plain `Exception` — is caught by the trailing `except Exception` clause
and re-raised as `NetworkError`.  Raises inside the `HTTPError` handler
propagate unwrapped. -/
def request' (parse : String → Option RawResponse) (r : HttpResult) :
    Except DsError RawResponse :=
  match r with
  | .ok status body =>
    if status = 200 then
      match parse body with
      | some j => .ok j
      | none => .error .network
    else
      .error .network
  | .httpError code _ =>
    if code = 401 ∨ code = 403 then .error .auth
    else if code = 404 then .error .notFound
    else if code = 429 then .error .rateLimit
    else if 500 ≤ code ∧ code < 600 then .error .remoteServer
    else .error .network
  | .transport => .error .network

/-- The required-keys validation loop of `decrypt_dataset`: true iff any of
`data`, `columns`, `row_count`, `total_rows`, `has_more`, `data_type` is
missing. -/
def requiredKeyMissing (r : RawResponse) : Bool :=
  r.dataField.isNone || r.columnsField.isNone || r.rowCountField.isNone ||
    r.totalRowsField.isNone || r.hasMoreField.isNone || r.dataTypeField.isNone

/-- `decrypt_dataset(dataset_id, token, ...)` from `metadata.py`:
`NotFoundError` when the endpoint is unconfigured, then one `_request`,
then the required-keys validation raising `RemoteServerError`. -/
def decrypt_dataset (endpointConfigured : Bool)
    (parse : String → Option RawResponse) (outcome : HttpResult) :
    Except DsError RawResponse :=
  if endpointConfigured = false then .error .notFound
  else
    match request' parse outcome with
    | .error e => .error e
    | .ok resp =>
      if requiredKeyMissing resp then .error .remoteServer else .ok resp

/-- A parse function modelling a body that is not valid JSON. -/
def c4BadParse : String → Option RawResponse := fun _ => none

/-- Counterexample to **C4** as stated: a 200 decrypt response whose body
is unparseable JSON raises `NetworkError`, not the claimed
`RemoteServerError` — the `json.loads` failure is caught by `_request`'s
trailing `except Exception` clause, which wraps everything as
`NetworkError`. -/
theorem decrypt_error_map_counterexample :
    decrypt_dataset true c4BadParse (.ok 200 "not json") = .error .network ∧
      DsError.network ≠ DsError.remoteServer :=
  ⟨rfl, by decide⟩

/-- **C4 (amended).** With the endpoint configured, the error raised by the
decrypt request is determined as follows: an HTTP-error status of 401 or
403 raises Auth, 404 raises NotFound, 429 raises RateLimit, any 5xx
raises RemoteServer; a 200 response whose body is missing a required key
raises RemoteServer, but a 200 response whose body is unparseable JSON
raises Network (wrapped by the blanket exception handler); and
connection-level (transport) errors raise Network. -/
theorem decrypt_error_map (parse : String → Option RawResponse)
    (code : Nat) (body : String) (resp : RawResponse) :
    (code = 401 ∨ code = 403 →
      decrypt_dataset true parse (.httpError code body) = .error .auth) ∧
    (code = 404 →
      decrypt_dataset true parse (.httpError code body) = .error .notFound) ∧
    (code = 429 →
      decrypt_dataset true parse (.httpError code body) = .error .rateLimit) ∧
    (500 ≤ code ∧ code < 600 →
      decrypt_dataset true parse (.httpError code body) = .error .remoteServer) ∧
    (parse body = some resp → requiredKeyMissing resp = true →
      decrypt_dataset true parse (.ok 200 body) = .error .remoteServer) ∧
    (parse body = none →
      decrypt_dataset true parse (.ok 200 body) = .error .network) ∧
    decrypt_dataset true parse .transport = .error .network := by
  refine ⟨?_, ?_, ?_, ?_, ?_, ?_, ?_⟩
  · intro h
    simp [decrypt_dataset, request', h]
  · intro h
    subst h
    simp [decrypt_dataset, request']
  · intro h
    subst h
    simp [decrypt_dataset, request']
  · intro h
    have h1 : ¬(code = 401 ∨ code = 403) := by omega
    have h2 : ¬code = 404 := by omega
    have h3 : ¬code = 429 := by omega
    simp [decrypt_dataset, request', h1, h2, h3, h]
  · intro hp hmiss
    simp [decrypt_dataset, request', hp, hmiss]
  · intro hp
    simp [decrypt_dataset, request', hp]
  · simp [decrypt_dataset, request']

/-- A parse function returning a decoded body missing `row_count`. -/
def c4MissingParse : String → Option RawResponse :=
  fun _ => some ⟨some [], some [], none, some 0, some false, some "sample"⟩

/-- Witness for **C4 (amended)**: each clause exercised at a concrete
status or body. -/
theorem decrypt_error_map_witness :
    decrypt_dataset true c4BadParse (.httpError 401 "") = .error .auth ∧
    decrypt_dataset true c4BadParse (.httpError 404 "") = .error .notFound ∧
    decrypt_dataset true c4BadParse (.httpError 429 "") = .error .rateLimit ∧
    decrypt_dataset true c4BadParse (.httpError 503 "") = .error .remoteServer ∧
    decrypt_dataset true c4MissingParse (.ok 200 "{}") = .error .remoteServer ∧
    decrypt_dataset true c4BadParse (.ok 200 "nope") = .error .network ∧
    decrypt_dataset true c4BadParse .transport = .error .network :=
  ⟨(decrypt_error_map c4BadParse 401 "" ⟨none, none, none, none, none, none⟩).1
      (Or.inl rfl),
    (decrypt_error_map c4BadParse 404 "" ⟨none, none, none, none, none, none⟩).2.1
      rfl,
    (decrypt_error_map c4BadParse 429 "" ⟨none, none, none, none, none, none⟩).2.2.1
      rfl,
    (decrypt_error_map c4BadParse 503 "" ⟨none, none, none, none, none, none⟩).2.2.2.1
      (by decide),
    (decrypt_error_map c4MissingParse 0 "{}"
        ⟨some [], some [], none, some 0, some false, some "sample"⟩).2.2.2.2.1
      rfl (by decide),
    (decrypt_error_map c4BadParse 0 "nope" ⟨none, none, none, none, none, none⟩).2.2.2.2.2.1
      rfl,
    (decrypt_error_map c4BadParse 0 "" ⟨none, none, none, none, none, none⟩).2.2.2.2.2.2⟩

end DelongDatasets

